import Mathlib

/-!
Formal model of the trade-invoice extractor (trade-invoice-extractor.py).

Strings are modelled as lists of characters. Python built-ins used by the
program (str.split with a one-character separator, slicing, int(), float(),
str.find, max()) are modelled by executable Lean functions below; numeric
parsing is modelled over exact rationals and integers. Python's "\d" regex
class is modelled by ASCII digits. The doc comment on each definition names
the source construct it embeds.
-/

set_option maxRecDepth 8000

namespace Invoice

/-- Whitespace characters stripped by Python's int()/float() and split by
str.split() with no argument. -/
def isPyWs (c : Char) : Bool :=
  c == ' ' || c == '\t' || c == '\n' || c == '\r' || c == '\x0b' || c == '\x0c'

/-- Leading and trailing whitespace removal, as Python's int()/float() apply
to their string argument. -/
def stripWs (l : List Char) : List Char :=
  ((l.dropWhile isPyWs).reverse.dropWhile isPyWs).reverse

/-- Value of a string of decimal digits. -/
def digitsToNat (l : List Char) : Nat :=
  l.foldl (fun a c => a * 10 + (c.toNat - '0'.toNat)) 0

/-- Tail of a PEP-515 digit group: a (possibly empty) continuation of digits
in which each underscore sits between two digits. Returns the digits with
the underscores removed, or none if malformed. -/
def digitGroupAux : List Char → Option (List Char)
  | [] => some []
  | '_' :: c :: cs =>
    if c.isDigit then Option.map (List.cons c) (digitGroupAux cs) else none
  | c :: cs =>
    if c.isDigit then Option.map (List.cons c) (digitGroupAux cs) else none

/-- A non-empty PEP-515 digit group: starts with a digit, single underscores
only between digits (so leading, trailing, doubled, dot- or sign-adjacent
underscores are rejected, as int() and float() reject them). -/
def digitGroup? : List Char → Option (List Char)
  | [] => none
  | c :: cs =>
    if c.isDigit then Option.map (List.cons c) (digitGroupAux cs) else none

/-- A possibly-empty digit group (the integer or fractional part around the
decimal point of a float literal may each be empty, but not both). -/
def digitGroupOpt? (l : List Char) : Option (List Char) :=
  match l with
  | [] => some []
  | _ => digitGroup? l

/-- Helper for pyInt: after the optional sign, int() requires exactly one
non-empty digit group. -/
def pyIntCore (sign : Int) (ds : List Char) : Option Int :=
  match digitGroup? ds with
  | some digits => some (sign * digitsToNat digits)
  | none => none

/-- Python int(str) in base 10: strips surrounding whitespace, optional
sign, then a non-empty digit group (underscores between digits allowed).
Digits are modelled as ASCII, per the file's global convention. -/
def pyInt (l : List Char) : Option Int :=
  match stripWs l with
  | '+' :: ds => pyIntCore 1 ds
  | '-' :: ds => pyIntCore (-1) ds
  | ds => pyIntCore 1 ds

/-- Split a list at the first character satisfying p: the part before it
and, when found, the part after it. -/
def splitAtFirst (p : Char → Bool) : List Char → (List Char × Option (List Char))
  | [] => ([], none)
  | c :: cs =>
    if p c then ([], some cs)
    else
      match splitAtFirst p cs with
      | (a, b) => (c :: a, b)

/-- The mantissa of a float literal: digits [. digits] or . digits, each
side a digit group, not both empty. Returns the combined numerator
intDigits * 10^k + fracDigits and the number k of fractional digits. -/
def parseMantissa? (mant : List Char) : Option (Nat × Nat) :=
  match splitAtFirst (fun c => c == '.') mant with
  | (intRaw, none) =>
    Option.map (fun ds => (digitsToNat ds, 0)) (digitGroup? intRaw)
  | (intRaw, some fracRaw) =>
    match digitGroupOpt? intRaw, digitGroupOpt? fracRaw with
    | some ids, some fds =>
      if ids.isEmpty && fds.isEmpty then none
      else some (digitsToNat ids * 10 ^ fds.length + digitsToNat fds, fds.length)
    | _, _ => none

/-- The exponent of a float literal: optional sign then a non-empty digit
group. -/
def parseExp? : List Char → Option Int
  | '+' :: ds => Option.map (fun l => (digitsToNat l : Int)) (digitGroup? ds)
  | '-' :: ds => Option.map (fun l => -(digitsToNat l : Int)) (digitGroup? ds)
  | ds => Option.map (fun l => (digitsToNat l : Int)) (digitGroup? ds)

/-- Helper for pyFloat: after the optional sign, a float literal is a
mantissa optionally followed by e/E and an exponent. The denoted rational
sign * (n / 10^k) * 10^E is built with mkRat so that it evaluates by kernel
reduction. -/
def pyFloatCore (sign : Int) (rest : List Char) : Option Rat :=
  match splitAtFirst (fun c => c == 'e' || c == 'E') rest with
  | (mant, expTail) =>
    match parseMantissa? mant with
    | none => none
    | some (n, k) =>
      match expTail with
      | none => some (mkRat (sign * n) (10 ^ k))
      | some ep =>
        match parseExp? ep with
        | none => none
        | some e =>
          if 0 ≤ e then some (mkRat (sign * n * 10 ^ e.toNat) (10 ^ k))
          else some (mkRat (sign * n) (10 ^ (k + (-e).toNat)))

/-- Python float(str) on decimal notation: surrounding whitespace, optional
sign, digits with an optional fractional part and an optional e/E exponent,
with PEP-515 underscores between digits; the value is the exact rational the
literal denotes (the program's binary floating point is modelled exactly,
per the file's global convention, and digits are ASCII). The special values
inf, infinity and nan are not representable as rationals and are omitted;
no string that contains a decimal point or a digit denotes them, so no
reconstructed cost string does. -/
def pyFloat (l : List Char) : Option Rat :=
  match stripWs l with
  | '+' :: rest => pyFloatCore 1 rest
  | '-' :: rest => pyFloatCore (-1) rest
  | rest => pyFloatCore 1 rest

/-- Normalisation of one Python slice endpoint against a length: negative
indices count from the end, and both ends are clamped to [0, len]. -/
def pyBound (len : Nat) (i : Int) : Nat :=
  if i < 0 then (i + len).toNat else min i.toNat len

/-- Python slice l[a:b] for lists. -/
def pySliceL {α : Type} (l : List α) (a b : Int) : List α :=
  (l.drop (pyBound l.length a)).take (pyBound l.length b - pyBound l.length a)

/-- Python indexing words[i]; every call site in this model has already
established 0 <= i < length, so the default is never reached. -/
def pyGet (l : List (List Char)) (i : Int) : List Char :=
  l.getD i.toNat []

/-- Python str.split(sep) for a single-character separator: splits at every
occurrence, keeping empty pieces (so consecutive separators and boundary
separators yield empty strings). -/
def splitOnChar (sep : Char) : List Char → List (List Char)
  | [] => [[]]
  | c :: cs =>
    match splitOnChar sep cs with
    | [] => [[]]
    | t :: ts => if c = sep then [] :: t :: ts else (c :: t) :: ts

/-- Python sep.join(parts) for a single-character separator. -/
def joinWith (sep : Char) : List (List Char) → List Char
  | [] => []
  | t :: ts => t ++ ts.foldr (fun u r => sep :: u ++ r) []

/-- Accumulator for splitWhitespace. -/
def splitWhitespaceAux : List Char → List Char → List (List Char)
  | [], acc => if acc.isEmpty then [] else [acc.reverse]
  | c :: cs, acc =>
    if isPyWs c then
      if acc.isEmpty then splitWhitespaceAux cs []
      else acc.reverse :: splitWhitespaceAux cs []
    else splitWhitespaceAux cs (c :: acc)

/-- Splitting on whitespace, the tokenisation the specification's words
describe (Python str.split() with no argument): maximal runs of
non-whitespace characters, with no empty tokens. Used only to compare the
specification's description against the program's actual split. -/
def splitWhitespace (l : List Char) : List (List Char) :=
  splitWhitespaceAux l []

/-- Python str.find(c) for a single-character needle: index of the first
occurrence, or -1. -/
def pyFindChar (c : Char) (l : List Char) : Int :=
  match l.findIdx? (fun x => x == c) with
  | some i => (i : Int)
  | none => -1

/-- Prefix test used by the substring containment below. -/
def listStartsWith : List Char → List Char → Bool
  | [], _ => true
  | _ :: _, [] => false
  | p :: ps, c :: cs => p == c && listStartsWith ps cs

/-- Substring containment, the semantics of an unanchored ".*pat" lookahead
over a single text line. -/
def containsSub (pat : List Char) : List Char → Bool
  | [] => listStartsWith pat []
  | c :: cs => listStartsWith pat (c :: cs) || containsSub pat cs

/-- Vendor: per-vendor layout description (class Vendor). The item regex is
represented by its search semantics, a boolean predicate on a line. -/
structure Vendor where
  name : List Char
  dateFormat : List Char
  itemMatch : List Char → Bool
  itemNameOffsetIndex : Int
  unitsOffsetIndex : Int
  unitCostOffsetIndex : Int

/-- Item: name, units, unit cost and the derived grand total
(class Item, with int units and the unit cost held exactly). -/
structure Item where
  name : List Char
  units : Int
  unitCost : Rat
  total : Rat
  deriving DecidableEq, Repr

deriving instance DecidableEq for Except

/-- Item.__init__: units parsed by int(), unitCost by float(), and
total assigned units * unitCost; a non-numeric token raises (error). The
product u * c is written mkRat (u * c.num) c.den — proved equal to
(u : Rat) * c in ratMul_mkRat below — so that it evaluates by kernel
reduction. -/
def mkItem (name units unitCost : List Char) : Except String Item :=
  match pyInt units with
  | none => Except.error "invalid literal for int"
  | some u =>
    match pyFloat unitCost with
    | none => Except.error "could not convert string to float"
    | some c =>
      Except.ok { name := name, units := u, unitCost := c, total := mkRat (u * c.num) c.den }

/-- Search semantics of the SCREWFIX item regex
"(?=^\d{3}.{2}\ )(?!.*03330 112 999)": the anchored lookahead can only
succeed at position 0, so a line matches iff it starts with three ASCII
digits, two further non-newline characters and a space, and does not contain
the support phone number. -/
def screwfixMatch (line : List Char) : Bool :=
  match line with
  | c1 :: c2 :: c3 :: c4 :: c5 :: c6 :: _ =>
    c1.isDigit && c2.isDigit && c3.isDigit &&
    !(c4 == '\n') && !(c5 == '\n') && (c6 == ' ') &&
    !(containsSub ("03330 112 999".data) line)
  | _ => false

/-- Search semantics of the TOOLSTATION item regex
"(?=^\d{5}\ )(?!.*00006)(?!.*00037)": a line matches iff it starts with five
ASCII digits and a space and contains neither excluded code. -/
def toolstationMatch (line : List Char) : Bool :=
  match line with
  | c1 :: c2 :: c3 :: c4 :: c5 :: c6 :: _ =>
    c1.isDigit && c2.isDigit && c3.isDigit && c4.isDigit && c5.isDigit &&
    (c6 == ' ') &&
    !(containsSub ("00006".data) line) &&
    !(containsSub ("00037".data) line)
  | _ => false

/-- VendorList.SCREWFIX. -/
def screwfixVendor : Vendor :=
  { name := "Screwfix".data
    dateFormat := "DD/MM/YYYY".data
    itemMatch := screwfixMatch
    itemNameOffsetIndex := -8
    unitsOffsetIndex := -8
    unitCostOffsetIndex := -7 }

/-- VendorList.TOOLSTATION. -/
def toolstationVendor : Vendor :=
  { name := "Toolstation".data
    dateFormat := "YYYY-MM-DD".data
    itemMatch := toolstationMatch
    itemNameOffsetIndex := -1
    unitsOffsetIndex := -1
    unitCostOffsetIndex := 0 }

/-- Order.isValidItem: the matched line is accepted iff each of the three
vendor offsets resolves, from offsetStart, to an index in [0, offsetStart]. -/
def isValidItem (offsetStart nameOff unitsOff unitCostOff : Int) : Bool :=
  if offsetStart + nameOff < 0 then false
  else if offsetStart + nameOff > offsetStart then false
  else if offsetStart + unitsOff < 0 then false
  else if offsetStart + unitsOff > offsetStart then false
  else if offsetStart + unitCostOff < 0 then false
  else if offsetStart + unitCostOff > offsetStart then false
  else true

/-- words = line.split(" ") in Order.extractItems. -/
def lineWords (line : List Char) : List (List Char) :=
  splitOnChar ' ' line

/-- offsetStart = len(words) - 1 in Order.extractItems. -/
def offsetStartOf (line : List Char) : Int :=
  (lineWords line).length - 1

/-- name = " ".join(words[1 : offsetStart + itemNameOffsetIndex]). -/
def nameOf (v : Vendor) (line : List Char) : List Char :=
  joinWith ' ' (pySliceL (lineWords line) 1 (offsetStartOf line + v.itemNameOffsetIndex))

/-- units = words[offsetStart + unitsOffsetIndex]. -/
def unitsTokOf (v : Vendor) (line : List Char) : List Char :=
  pyGet (lineWords line) (offsetStartOf line + v.unitsOffsetIndex)

/-- unitCostParts = words[offsetStart + unitCostOffsetIndex].split("."). -/
def costParts (v : Vendor) (line : List Char) : List (List Char) :=
  splitOnChar '.' (pyGet (lineWords line) (offsetStartOf line + v.unitCostOffsetIndex))

/-- unitCost = unitCostParts[0] + "." + unitCostParts[1][0:2]. -/
def costString (v : Vendor) (line : List Char) : List Char :=
  (costParts v line).getD 0 [] ++ '.' :: ((costParts v line).getD 1 []).take 2

/-- Body of the Order.extractItems loop for one line: regex search, split,
offset validation, cost-shape check, and Item construction. Returns ok none
when the line is skipped silently, ok (some item) when an item is appended,
and error when Item construction raises. -/
def processLine (v : Vendor) (line : List Char) : Except String (Option Item) :=
  if v.itemMatch line then
    if isValidItem (offsetStartOf line) v.itemNameOffsetIndex v.unitsOffsetIndex
        v.unitCostOffsetIndex then
      if 1 < (costParts v line).length then
        Except.map some (mkItem (nameOf v line) (unitsTokOf v line) (costString v line))
      else Except.ok none
    else Except.ok none
  else Except.ok none

/-- Order.extractItems: process the lines in order, collecting appended items;
an exception raised while constructing an Item aborts the whole extraction. -/
def extractItems (v : Vendor) : List (List Char) → Except String (List Item)
  | [] => Except.ok []
  | l :: ls =>
    match processLine v l with
    | Except.error e => Except.error e
    | Except.ok none => extractItems v ls
    | Except.ok (some it) =>
      match extractItems v ls with
      | Except.error e => Except.error e
      | Except.ok its => Except.ok (it :: its)

/-- Characters of the delimiter class "[\/\-\.]" searched for in the date
format. -/
def isDelimChar (c : Char) : Bool :=
  c == '/' || c == '-' || c == '.'

/-- re.search("[\/\-\.]", dateFormat): the first delimiter character of the
template, if any (None raises AttributeError in the source). -/
def findDelim (fmt : List Char) : Option Char :=
  fmt.find? isDelimChar

/-- One fragment of the generated date pattern: a single-digit wildcard "\d"
or an escaped literal character. -/
inductive RegexToken where
  | digit : RegexToken
  | lit : Char → RegexToken
  deriving DecidableEq, Repr

/-- Interpretation of one pattern fragment on one character; "\d" is
modelled by ASCII digits. -/
def tokMatch : RegexToken → Char → Bool
  | RegexToken.digit, c => c.isDigit
  | RegexToken.lit d, c => c == d

/-- The generated date pattern: each template character maps to "\d" unless
it equals the delimiter, which maps to the escaped delimiter, concatenated in
template order (the map/reduce in Order.extractDate). -/
def dateRegexParts (fmt : List Char) (delim : Char) : List RegexToken :=
  fmt.map (fun c => if c ≠ delim then RegexToken.digit else RegexToken.lit delim)

/-- Matching a fixed sequence of single-character fragments against a whole
candidate substring. -/
def patMatch : List RegexToken → List Char → Bool
  | [], [] => true
  | t :: ts, c :: cs => tokMatch t c && patMatch ts cs
  | _, _ => false

/-- Scanner for findAll, structurally recursive on a fuel that always bounds
the remaining length (every step consumes at least one character and one unit
of fuel, so fuel never runs out before the string does). -/
def findAllAux (pat : List RegexToken) : Nat → List Char → List (List Char)
  | 0, _ => []
  | _, [] => []
  | fuel + 1, c :: cs =>
    if patMatch pat (List.take pat.length (c :: cs)) then
      List.take pat.length (c :: cs) ::
        findAllAux pat fuel (List.drop (pat.length - 1) cs)
    else findAllAux pat fuel cs

/-- re.findall for the generated pattern: scan left to right, at each
position try the fixed-width pattern; on success record the substring and
continue after it, otherwise advance one character. (The generated pattern is
never empty, because the template contains its delimiter.) -/
def findAll (pat : List RegexToken) (l : List Char) : List (List Char) :=
  findAllAux pat l.length l

/-- numD = len(dateFormat.split("D")) - 1, the number of D characters. -/
def numD (fmt : List Char) : Nat := fmt.count 'D'

/-- numM = len(dateFormat.split("M")) - 1, the number of M characters. -/
def numM (fmt : List Char) : Nat := fmt.count 'M'

/-- numY = len(dateFormat.split("Y")) - 1, the number of Y characters. -/
def numY (fmt : List Char) : Nat := fmt.count 'Y'

/-- yearPrefix: str(datetime.now().year)[0:2] when numY == 2, else "".
The current calendar year is an explicit parameter cy of the model. -/
def yearPrefixStr (cy : Nat) (fmt : List Char) : List Char :=
  if numY fmt = 2 then (Nat.toDigits 10 cy).take 2 else []

/-- The year string handed to int(): yearPrefix + d[iY : iY + numY]. -/
def yearStr (cy : Nat) (fmt m : List Char) : List Char :=
  yearPrefixStr cy fmt ++ pySliceL m (pyFindChar 'Y' fmt) (pyFindChar 'Y' fmt + numY fmt)

/-- The month string handed to int(): d[iM : iM + numM]. -/
def monthStr (fmt m : List Char) : List Char :=
  pySliceL m (pyFindChar 'M' fmt) (pyFindChar 'M' fmt + numM fmt)

/-- The day string handed to int(): d[iD : iD + numD]. -/
def dayStr (fmt m : List Char) : List Char :=
  pySliceL m (pyFindChar 'D' fmt) (pyFindChar 'D' fmt + numD fmt)

/-- A datetime.datetime value at day precision. -/
structure PyDate where
  year : Nat
  month : Nat
  day : Nat
  deriving DecidableEq, Repr

/-- Gregorian leap-year rule used by datetime. -/
def isLeapYear (y : Int) : Bool :=
  y % 4 == 0 && (!(y % 100 == 0) || y % 400 == 0)

/-- Days in a month as datetime validates them. -/
def daysInMonth (y m : Int) : Int :=
  if m = 2 then (if isLeapYear y then 29 else 28)
  else if m = 4 ∨ m = 6 ∨ m = 9 ∨ m = 11 then 30
  else 31

/-- datetime.datetime(y, m, d): succeeds only for a valid proleptic Gregorian
calendar date with 1 <= year <= 9999; otherwise raises (none). -/
def mkDatetime (y m d : Int) : Option PyDate :=
  if 1 ≤ y ∧ y ≤ 9999 ∧ 1 ≤ m ∧ m ≤ 12 ∧ 1 ≤ d ∧ d ≤ daysInMonth y m then
    some { year := y.toNat, month := m.toNat, day := d.toNat }
  else none

/-- Parsing one regex match into a datetime:
datetime(int(yearPrefix + d[iY:iY+numY]), int(d[iM:iM+numM]), int(d[iD:iD+numD])). -/
def parseDate (cy : Nat) (fmt m : List Char) : Option PyDate :=
  match pyInt (yearStr cy fmt m), pyInt (monthStr fmt m), pyInt (dayStr fmt m) with
  | some y, some mo, some d => mkDatetime y mo d
  | _, _, _ => none

/-- Parsing one match inside the extraction loop: a match that does not form
a valid date raises, aborting date extraction. -/
def parseDateE (cy : Nat) (fmt m : List Char) : Except String PyDate :=
  match parseDate cy fmt m with
  | some d => Except.ok d
  | none => Except.error "ValueError: invalid date"

/-- Sequencing of the per-match parses with Python exception semantics: the
first raising parse aborts, otherwise all values are collected in order. -/
def exceptMapM (f : List Char → Except String PyDate) :
    List (List Char) → Except String (List PyDate)
  | [] => Except.ok []
  | m :: ms =>
    match f m with
    | Except.error e => Except.error e
    | Except.ok d =>
      match exceptMapM f ms with
      | Except.error e => Except.error e
      | Except.ok ds => Except.ok (d :: ds)

/-- Strict chronological order on datetimes (lexicographic on year, month,
day), as datetime comparison implements it. -/
def dateLt (a b : PyDate) : Bool :=
  decide (a.year < b.year) ||
    (decide (a.year = b.year) &&
      (decide (a.month < b.month) ||
        (decide (a.month = b.month) && decide (a.day < b.day))))

/-- Chronological order, the negation of the reversed strict order. -/
def dateLe (a b : PyDate) : Bool :=
  !(dateLt b a)

/-- Python max() over a list of datetimes: none on the empty list
(ValueError), otherwise the left fold keeping the strictly greater value. -/
def maxDate? : List PyDate → Option PyDate
  | [] => none
  | d :: ds => some (ds.foldl (fun a b => if dateLt a b then b else a) d)

/-- All regex matches of the generated date pattern across all lines, in
document order; empty when the template has no delimiter (in which case the
source raises before scanning). -/
def allMatches (fmt : List Char) (lines : List (List Char)) : List (List Char) :=
  match findDelim fmt with
  | none => []
  | some delim =>
    lines.foldr (fun l r => findAll (dateRegexParts fmt delim) l ++ r) []

/-- Order.extractDate: build the pattern from the vendor date format, collect
every match of every line, parse each into a datetime (raising on an invalid
one), and take the maximum; an empty collection raises. cy is the current
calendar year read from the clock. -/
def extractDate (cy : Nat) (fmt : List Char) (lines : List (List Char)) :
    Except String PyDate :=
  match findDelim fmt with
  | none => Except.error "AttributeError: no delimiter in date format"
  | some _ =>
    match exceptMapM (parseDateE cy fmt) (allMatches fmt lines) with
    | Except.error e => Except.error e
    | Except.ok ds =>
      match maxDate? ds with
      | none => Except.error "ValueError: max() arg is an empty sequence"
      | some d => Except.ok d

/-- The occurrences of c in fmt form one contiguous run of length L (the
well-formedness the specification states for D, M and Y runs). -/
def isSingleRun (c : Char) (fmt : List Char) (L : Nat) : Prop :=
  0 < L ∧ ∃ a b, fmt = a ++ List.replicate L c ++ b ∧ c ∉ a ∧ c ∉ b

/-! Helper lemmas. -/

theorem isValidItem_iff (offsetStart nameOff unitsOff unitCostOff : Int) :
    isValidItem offsetStart nameOff unitsOff unitCostOff = true ↔
      (0 ≤ offsetStart + nameOff ∧ offsetStart + nameOff ≤ offsetStart) ∧
      (0 ≤ offsetStart + unitsOff ∧ offsetStart + unitsOff ≤ offsetStart) ∧
      (0 ≤ offsetStart + unitCostOff ∧ offsetStart + unitCostOff ≤ offsetStart) := by
  unfold isValidItem
  split_ifs <;> simp_all

theorem splitOnChar_cons_eq (sep c : Char) (cs t : List Char) (ts : List (List Char))
    (h : splitOnChar sep cs = t :: ts) :
    splitOnChar sep (c :: cs) = if c = sep then [] :: t :: ts else (c :: t) :: ts := by
  simp only [splitOnChar, h]

theorem splitOnChar_ne_nil (sep : Char) (l : List Char) : splitOnChar sep l ≠ [] := by
  induction l with
  | nil => simp [splitOnChar]
  | cons c cs ih =>
    rcases h : splitOnChar sep cs with _ | ⟨t, ts⟩
    · exact absurd h ih
    · rw [splitOnChar_cons_eq sep c cs t ts h]
      by_cases hc : c = sep <;> simp [hc]

theorem joinWith_splitOnChar (sep : Char) (l : List Char) :
    joinWith sep (splitOnChar sep l) = l := by
  induction l with
  | nil => rfl
  | cons c cs ih =>
    rcases h : splitOnChar sep cs with _ | ⟨t, ts⟩
    · exact absurd h (splitOnChar_ne_nil sep cs)
    · rw [h] at ih
      rw [splitOnChar_cons_eq sep c cs t ts h]
      by_cases hc : c = sep
      · subst hc
        rw [if_pos rfl]
        have hj : joinWith c ([] :: t :: ts) = c :: joinWith c (t :: ts) := rfl
        rw [hj, ih]
      · rw [if_neg hc]
        have hj : joinWith sep ((c :: t) :: ts) = c :: joinWith sep (t :: ts) := rfl
        rw [hj, ih]

theorem sep_not_mem_splitOnChar (sep : Char) (l : List Char) :
    ∀ t ∈ splitOnChar sep l, sep ∉ t := by
  induction l with
  | nil =>
    intro t ht
    simp only [splitOnChar, List.mem_singleton] at ht
    subst ht; simp
  | cons c cs ih =>
    intro t ht
    rcases h : splitOnChar sep cs with _ | ⟨u, us⟩
    · exact absurd h (splitOnChar_ne_nil sep cs)
    · rw [h] at ih
      rw [splitOnChar_cons_eq sep c cs u us h] at ht
      by_cases hc : c = sep
      · rw [if_pos hc] at ht
        rcases List.mem_cons.mp ht with rfl | ht2
        · simp
        · exact ih t ht2
      · rw [if_neg hc] at ht
        rcases List.mem_cons.mp ht with rfl | ht2
        · intro hmem
          rcases List.mem_cons.mp hmem with h' | hmem2
          · exact hc h'.symm
          · exact ih u (List.mem_cons_self u us) hmem2
        · exact ih t (List.mem_cons_of_mem u ht2)

theorem ratMul_mkRat (u : Int) (c : Rat) : mkRat (u * c.num) c.den = (u : Rat) * c := by
  rw [Rat.mkRat_eq_div]
  push_cast
  rw [mul_div_assoc, Rat.num_div_den]

theorem mkItem_ok_fields (name units cost : List Char) (it : Item)
    (h : mkItem name units cost = Except.ok it) :
    some it.units = pyInt units ∧ some it.unitCost = pyFloat cost ∧
    it.name = name ∧ it.total = (it.units : Rat) * it.unitCost := by
  unfold mkItem at h
  cases h1 : pyInt units with
  | none => rw [h1] at h; cases h
  | some u =>
    rw [h1] at h
    cases h2 : pyFloat cost with
    | none => rw [h2] at h; cases h
    | some c =>
      rw [h2] at h
      cases h
      exact ⟨rfl, rfl, rfl, ratMul_mkRat u c⟩

theorem mkItem_error_of_none (name units cost : List Char)
    (hbad : pyInt units = none ∨ pyFloat cost = none) :
    ∃ e, mkItem name units cost = Except.error e := by
  unfold mkItem
  cases h1 : pyInt units with
  | none => exact ⟨_, rfl⟩
  | some u =>
    rcases hbad with hb | hb
    · rw [h1] at hb; cases hb
    · rw [hb]; exact ⟨_, rfl⟩

theorem processLine_eq_of_valid (v : Vendor) (line : List Char)
    (hm : v.itemMatch line = true)
    (hv : isValidItem (offsetStartOf line) v.itemNameOffsetIndex v.unitsOffsetIndex
      v.unitCostOffsetIndex = true)
    (hdot : 1 < (costParts v line).length) :
    processLine v line =
      Except.map some (mkItem (nameOf v line) (unitsTokOf v line) (costString v line)) := by
  unfold processLine
  rw [if_pos hm, if_pos hv, if_pos hdot]

theorem processLine_skip_of_no_dot (v : Vendor) (line : List Char)
    (hm : v.itemMatch line = true)
    (hv : isValidItem (offsetStartOf line) v.itemNameOffsetIndex v.unitsOffsetIndex
      v.unitCostOffsetIndex = true)
    (hdot : ¬ 1 < (costParts v line).length) :
    processLine v line = Except.ok none := by
  unfold processLine
  rw [if_pos hm, if_pos hv, if_neg hdot]

theorem processLine_ok_some_total (v : Vendor) (line : List Char) (it : Item)
    (hp : processLine v line = Except.ok (some it)) :
    it.total = (it.units : Rat) * it.unitCost := by
  unfold processLine at hp
  split at hp
  · split at hp
    · split at hp
      · cases hmk : mkItem (nameOf v line) (unitsTokOf v line) (costString v line) with
        | error e => rw [hmk] at hp; cases hp
        | ok i =>
          rw [hmk] at hp
          cases hp
          exact (mkItem_ok_fields _ _ _ _ hmk).2.2.2
      · cases hp
    · cases hp
  · cases hp

theorem pySliceL_one_eq_nil {α : Type} (l : List α) (k : Int)
    (h0 : 0 ≤ k) (h1 : k ≤ 1) : pySliceL l 1 k = [] := by
  unfold pySliceL pyBound
  rw [if_neg (by omega : ¬ (1 : Int) < 0), if_neg (by omega : ¬ k < 0)]
  have hb : min k.toNat l.length ≤ min (1 : Int).toNat l.length := by
    refine min_le_min ?_ le_rfl
    omega
  rw [Nat.sub_eq_zero_of_le hb, List.take_zero]

theorem dateLe_refl (a : PyDate) : dateLe a a = true := by
  simp [dateLe, dateLt]

theorem dateLe_trans {a b c : PyDate} (h1 : dateLe a b = true)
    (h2 : dateLe b c = true) : dateLe a c = true := by
  simp only [dateLe, dateLt, Bool.not_eq_true', Bool.or_eq_false_iff,
    Bool.and_eq_false_iff, decide_eq_false_iff_not, decide_eq_true_eq, not_lt] at h1 h2 ⊢
  omega

theorem dateLe_of_dateLt {a b : PyDate} (h : dateLt a b = true) : dateLe a b = true := by
  simp only [dateLt, Bool.or_eq_true, Bool.and_eq_true, decide_eq_true_eq] at h
  simp only [dateLe, dateLt, Bool.not_eq_true', Bool.or_eq_false_iff,
    Bool.and_eq_false_iff, decide_eq_false_iff_not, decide_eq_true_eq, not_lt]
  omega

theorem dateLe_of_not_dateLt {a b : PyDate} (h : dateLt a b = false) :
    dateLe b a = true := by
  unfold dateLe
  rw [h]
  rfl

theorem foldlMax_spec (ds : List PyDate) : ∀ d : PyDate,
    List.foldl (fun a b => if dateLt a b then b else a) d ds ∈ d :: ds ∧
    dateLe d (List.foldl (fun a b => if dateLt a b then b else a) d ds) = true ∧
    ∀ x ∈ ds, dateLe x (List.foldl (fun a b => if dateLt a b then b else a) d ds) = true := by
  induction ds with
  | nil =>
    intro d
    refine ⟨List.mem_cons_self d [], dateLe_refl d, ?_⟩
    intro x hx
    cases hx
  | cons e tl ih =>
    intro d
    obtain ⟨hmem, hle, hall⟩ := ih (if dateLt d e then e else d)
    have hde : dateLe d (if dateLt d e then e else d) = true := by
      by_cases hlt : dateLt d e = true
      · rw [if_pos hlt]; exact dateLe_of_dateLt hlt
      · rw [if_neg hlt]; exact dateLe_refl d
    have hee : dateLe e (if dateLt d e then e else d) = true := by
      by_cases hlt : dateLt d e = true
      · rw [if_pos hlt]; exact dateLe_refl e
      · rw [if_neg hlt]
        exact dateLe_of_not_dateLt (Bool.not_eq_true _ ▸ Bool.of_not_eq_true hlt)
    have hfold : List.foldl (fun a b => if dateLt a b then b else a) d (e :: tl) =
        List.foldl (fun a b => if dateLt a b then b else a) (if dateLt d e then e else d) tl :=
      rfl
    rw [hfold]
    refine ⟨?_, dateLe_trans hde hle, ?_⟩
    · rcases List.mem_cons.mp hmem with h | h
      · rw [h]
        by_cases hlt : dateLt d e = true
        · rw [if_pos hlt]
          exact List.mem_cons_of_mem d (List.mem_cons_self e tl)
        · rw [if_neg hlt]
          exact List.mem_cons_self d (e :: tl)
      · exact List.mem_cons_of_mem d (List.mem_cons_of_mem e h)
    · intro x hx
      rcases List.mem_cons.mp hx with rfl | hx2
      · exact dateLe_trans hee hle
      · exact hall x hx2

theorem maxDate?_some_spec (ds : List PyDate) (m : PyDate)
    (h : maxDate? ds = some m) : m ∈ ds ∧ ∀ x ∈ ds, dateLe x m = true := by
  cases ds with
  | nil => cases h
  | cons d tl =>
    have hspec := foldlMax_spec tl d
    simp only [maxDate?, Option.some.injEq] at h
    subst h
    refine ⟨hspec.1, ?_⟩
    intro x hx
    rcases List.mem_cons.mp hx with rfl | hx2
    · exact hspec.2.1
    · exact hspec.2.2 x hx2

theorem exceptMapM_ok_of_all_some (cy : Nat) (fmt : List Char) (ms : List (List Char))
    (h : ∀ m ∈ ms, (parseDate cy fmt m).isSome = true) :
    exceptMapM (parseDateE cy fmt) ms =
      Except.ok (ms.filterMap (parseDate cy fmt)) := by
  induction ms with
  | nil => rfl
  | cons m ms ih =>
    obtain ⟨d, hd⟩ := Option.isSome_iff_exists.mp (h m (List.mem_cons_self m ms))
    have hE : parseDateE cy fmt m = Except.ok d := by
      unfold parseDateE
      rw [hd]
    unfold exceptMapM
    rw [hE, ih (fun x hx => h x (List.mem_cons_of_mem m hx))]
    simp [List.filterMap_cons, hd]

theorem exceptMapM_error_of_none (cy : Nat) (fmt : List Char) (ms : List (List Char))
    (h : ∃ m ∈ ms, parseDate cy fmt m = none) :
    ∃ e, exceptMapM (parseDateE cy fmt) ms = Except.error e := by
  induction ms with
  | nil =>
    obtain ⟨m, hm, _⟩ := h
    cases hm
  | cons m ms ih =>
    unfold exceptMapM
    cases hE : parseDateE cy fmt m with
    | error e => exact ⟨e, rfl⟩
    | ok d =>
      obtain ⟨x, hx, hxn⟩ := h
      rcases List.mem_cons.mp hx with rfl | hx2
      · unfold parseDateE at hE
        rw [hxn] at hE
        cases hE
      · obtain ⟨e, he⟩ := ih ⟨x, hx2, hxn⟩
        refine ⟨e, ?_⟩
        rw [he]

theorem exceptMapM_congr (f g : List Char → Except String PyDate)
    (ms : List (List Char)) (h : ∀ m ∈ ms, f m = g m) :
    exceptMapM f ms = exceptMapM g ms := by
  induction ms with
  | nil => rfl
  | cons m ms ih =>
    unfold exceptMapM
    rw [h m (List.mem_cons_self m ms), ih (fun x hx => h x (List.mem_cons_of_mem m hx))]

theorem count_of_singleRun (c : Char) (fmt : List Char) (L : Nat)
    (h : isSingleRun c fmt L) : fmt.count c = L := by
  obtain ⟨_, a, b, rfl, ha, hb⟩ := h
  rw [List.count_append, List.count_append, List.count_eq_zero.mpr ha,
    List.count_eq_zero.mpr hb, List.count_replicate_self]
  omega

theorem yearPrefixStr_of_two (cy : Nat) (fmt : List Char) (h : numY fmt = 2) :
    yearPrefixStr cy fmt = (Nat.toDigits 10 cy).take 2 := by
  unfold yearPrefixStr
  rw [if_pos h]

theorem yearPrefixStr_of_ne (cy : Nat) (fmt : List Char) (h : numY fmt ≠ 2) :
    yearPrefixStr cy fmt = [] := by
  unfold yearPrefixStr
  rw [if_neg h]

theorem parseDate_cy_congr (fmt : List Char) (h : numY fmt ≠ 2) (cy₁ cy₂ : Nat)
    (m : List Char) : parseDate cy₁ fmt m = parseDate cy₂ fmt m := by
  unfold parseDate yearStr
  rw [yearPrefixStr_of_ne cy₁ fmt h, yearPrefixStr_of_ne cy₂ fmt h]

theorem tokMatch_delim_iff (δ a c : Char) :
    tokMatch (if a ≠ δ then RegexToken.digit else RegexToken.lit δ) c = true ↔
      ((a = δ → c = δ) ∧ (a ≠ δ → c.isDigit = true)) := by
  by_cases hc : a = δ
  · subst hc
    simp [tokMatch]
  · rw [if_pos hc]
    simp [tokMatch, hc]

theorem patMatch_map_iff (f : Char → RegexToken) (l : List Char) : ∀ s : List Char,
    patMatch (l.map f) s = true ↔
      (s.length = l.length ∧ ∀ i, i < l.length →
        tokMatch (f (l.getD i ' ')) (s.getD i ' ') = true) := by
  induction l with
  | nil =>
    intro s
    cases s with
    | nil => simp [patMatch]
    | cons c cs => simp [patMatch]
  | cons t ts ih =>
    intro s
    cases s with
    | nil => simp [patMatch]
    | cons c cs =>
      simp only [List.map_cons, patMatch, Bool.and_eq_true, List.length_cons]
      rw [ih cs]
      constructor
      · rintro ⟨h1, h2, h3⟩
        refine ⟨by omega, ?_⟩
        intro i hi
        cases i with
        | zero => simpa using h1
        | succ n => simpa using h3 n (by omega)
      · rintro ⟨h1, h2⟩
        refine ⟨by simpa using h2 0 (by omega), by omega, ?_⟩
        intro n hn
        simpa using h2 (n + 1) (by omega)

/-! Claim theorems. -/

/-- C1: isValidItem accepts exactly when each of the three offsets o
satisfies 0 <= offsetStart + o <= offsetStart; in particular offsetStart=10
with offsets (-8,-8,-7) is valid and with (-20,0,0) is invalid. -/
theorem isValidItem_spec (offsetStart nameOff unitsOff unitCostOff : Int) :
    (isValidItem offsetStart nameOff unitsOff unitCostOff = true ↔
      (0 ≤ offsetStart + nameOff ∧ offsetStart + nameOff ≤ offsetStart) ∧
      (0 ≤ offsetStart + unitsOff ∧ offsetStart + unitsOff ≤ offsetStart) ∧
      (0 ≤ offsetStart + unitCostOff ∧ offsetStart + unitCostOff ≤ offsetStart)) ∧
    isValidItem 10 (-8) (-8) (-7) = true ∧
    isValidItem 10 (-20) 0 0 = false :=
  ⟨isValidItem_iff offsetStart nameOff unitsOff unitCostOff, by decide, by decide⟩

/-- C4 counterexample: on a SCREWFIX-matching line containing a tab, the
program's tokenisation (split on the single space character) differs from
splitting on whitespace, and the resulting offsetStart differs from
tokens.length - 1 of the whitespace tokenisation. -/
theorem lineTokens_whitespace_cex :
    screwfixMatch ("123AB a\tb c d e f g h 2 1.50".data) = true ∧
    lineWords ("123AB a\tb c d e f g h 2 1.50".data) ≠
      splitWhitespace ("123AB a\tb c d e f g h 2 1.50".data) ∧
    offsetStartOf ("123AB a\tb c d e f g h 2 1.50".data) ≠
      ((splitWhitespace ("123AB a\tb c d e f g h 2 1.50".data)).length : Int) - 1 := by
  decide

/-- C4 amended: on every line on which the vendor's item regex finds a match,
the matcher splits the line on single space characters — the tokens contain
no space character and rejoining them with single spaces restores the line
exactly, while other whitespace such as tabs stays inside tokens — and sets
offsetStart = tokens.length - 1. -/
theorem lineTokens_spec (v : Vendor) (line : List Char)
    (_hm : v.itemMatch line = true) :
    offsetStartOf line = ((lineWords line).length : Int) - 1 ∧
    joinWith ' ' (lineWords line) = line ∧
    ∀ t ∈ lineWords line, ' ' ∉ t :=
  ⟨rfl, joinWith_splitOnChar ' ' line, sep_not_mem_splitOnChar ' ' line⟩

/-- Witness for C4's amended theorem at a concrete SCREWFIX line. -/
theorem lineTokens_witness :
    screwfixVendor.itemMatch ("123AB 5 12.30 a b c d e f g".data) = true ∧
    (offsetStartOf ("123AB 5 12.30 a b c d e f g".data) =
      ((lineWords ("123AB 5 12.30 a b c d e f g".data)).length : Int) - 1 ∧
    joinWith ' ' (lineWords ("123AB 5 12.30 a b c d e f g".data)) =
      "123AB 5 12.30 a b c d e f g".data ∧
    ∀ t ∈ lineWords ("123AB 5 12.30 a b c d e f g".data), ' ' ∉ t) :=
  ⟨by decide, lineTokens_spec screwfixVendor ("123AB 5 12.30 a b c d e f g".data) (by decide)⟩

/-- C3: for a matched and offset-valid candidate line, a unit-cost token with
fewer than two dot-separated parts discards the line silently, and otherwise
the unit cost is parsed from the reconstruction integer part + "." + first
two fractional characters; cost token "12.345" yields unit cost 12.34 and
cost token "12" yields no Item. -/
theorem costNormalization_spec (v : Vendor) (line : List Char)
    (hm : v.itemMatch line = true)
    (hv : isValidItem (offsetStartOf line) v.itemNameOffsetIndex v.unitsOffsetIndex
      v.unitCostOffsetIndex = true) :
    ((costParts v line).length < 2 → processLine v line = Except.ok none) ∧
    (2 ≤ (costParts v line).length →
      costString v line =
        (costParts v line).getD 0 [] ++ '.' :: ((costParts v line).getD 1 []).take 2 ∧
      ∀ it, processLine v line = Except.ok (some it) →
        some it.unitCost = pyFloat (costString v line)) ∧
    processLine screwfixVendor ("123AB 5 12.345 a b c d e f g".data) =
      Except.ok (some { name := [], units := 5, unitCost := mkRat 617 50, total := mkRat 617 10 }) ∧
    processLine screwfixVendor ("123AB 5 12 a b c d e f g".data) = Except.ok none := by
  refine ⟨?_, ?_, by decide, by decide⟩
  · intro hlt
    exact processLine_skip_of_no_dot v line hm hv (by omega)
  · intro hge
    refine ⟨rfl, ?_⟩
    intro it hit
    rw [processLine_eq_of_valid v line hm hv (by omega)] at hit
    cases hmk : mkItem (nameOf v line) (unitsTokOf v line) (costString v line) with
    | error e => rw [hmk] at hit; cases hit
    | ok i =>
      rw [hmk] at hit
      cases hit
      exact (mkItem_ok_fields _ _ _ _ hmk).2.1

/-- Witness for C3 at a concrete SCREWFIX line with cost token "12.345". -/
theorem costNormalization_witness :
    screwfixVendor.itemMatch ("123AB 5 12.345 a b c d e f g".data) = true ∧
    isValidItem (offsetStartOf ("123AB 5 12.345 a b c d e f g".data))
      screwfixVendor.itemNameOffsetIndex screwfixVendor.unitsOffsetIndex
      screwfixVendor.unitCostOffsetIndex = true ∧
    (((costParts screwfixVendor ("123AB 5 12.345 a b c d e f g".data)).length < 2 →
      processLine screwfixVendor ("123AB 5 12.345 a b c d e f g".data) = Except.ok none) ∧
    (2 ≤ (costParts screwfixVendor ("123AB 5 12.345 a b c d e f g".data)).length →
      costString screwfixVendor ("123AB 5 12.345 a b c d e f g".data) =
        (costParts screwfixVendor ("123AB 5 12.345 a b c d e f g".data)).getD 0 [] ++
          '.' :: ((costParts screwfixVendor ("123AB 5 12.345 a b c d e f g".data)).getD 1 []).take 2 ∧
      ∀ it, processLine screwfixVendor ("123AB 5 12.345 a b c d e f g".data) =
          Except.ok (some it) →
        some it.unitCost = pyFloat (costString screwfixVendor ("123AB 5 12.345 a b c d e f g".data))) ∧
    processLine screwfixVendor ("123AB 5 12.345 a b c d e f g".data) =
      Except.ok (some { name := [], units := 5, unitCost := mkRat 617 50, total := mkRat 617 10 }) ∧
    processLine screwfixVendor ("123AB 5 12 a b c d e f g".data) = Except.ok none) :=
  ⟨by decide, by decide,
    costNormalization_spec screwfixVendor ("123AB 5 12.345 a b c d e f g".data)
      (by decide) (by decide)⟩

/-- C7: on a matched, offset-valid line whose cost token contains a decimal
point, a non-numeric units token or a non-numeric reconstructed cost string
makes Item construction raise — the error aborts extraction rather than
skipping the line. -/
theorem nonNumericFatal_spec (v : Vendor) (line : List Char)
    (hm : v.itemMatch line = true)
    (hv : isValidItem (offsetStartOf line) v.itemNameOffsetIndex v.unitsOffsetIndex
      v.unitCostOffsetIndex = true)
    (hdot : 1 < (costParts v line).length)
    (hbad : pyInt (unitsTokOf v line) = none ∨ pyFloat (costString v line) = none) :
    (∃ e, processLine v line = Except.error e) ∧
    ∀ rest, ∃ e, extractItems v (line :: rest) = Except.error e := by
  obtain ⟨e, he⟩ := mkItem_error_of_none (nameOf v line) (unitsTokOf v line)
    (costString v line) hbad
  have hp : processLine v line = Except.error e := by
    rw [processLine_eq_of_valid v line hm hv hdot, he]; rfl
  refine ⟨⟨e, hp⟩, fun rest => ⟨e, ?_⟩⟩
  unfold extractItems
  rw [hp]

/-- Witness for C7 at a concrete SCREWFIX line whose units token is "x". -/
theorem nonNumericFatal_witness :
    screwfixVendor.itemMatch ("123AB x 1.50 a b c d e f g".data) = true ∧
    isValidItem (offsetStartOf ("123AB x 1.50 a b c d e f g".data))
      screwfixVendor.itemNameOffsetIndex screwfixVendor.unitsOffsetIndex
      screwfixVendor.unitCostOffsetIndex = true ∧
    1 < (costParts screwfixVendor ("123AB x 1.50 a b c d e f g".data)).length ∧
    pyInt (unitsTokOf screwfixVendor ("123AB x 1.50 a b c d e f g".data)) = none ∧
    (∃ e, processLine screwfixVendor ("123AB x 1.50 a b c d e f g".data) = Except.error e) ∧
    (∃ e, extractItems screwfixVendor [("123AB x 1.50 a b c d e f g".data)] = Except.error e) :=
  ⟨by decide, by decide, by decide, by decide,
    (nonNumericFatal_spec screwfixVendor ("123AB x 1.50 a b c d e f g".data)
      (by decide) (by decide) (by decide) (Or.inl (by decide))).1,
    (nonNumericFatal_spec screwfixVendor ("123AB x 1.50 a b c d e f g".data)
      (by decide) (by decide) (by decide) (Or.inl (by decide))).2 []⟩

/-- C8: every Item constructed by the program satisfies
total = units * unitCost — both for a single construction and for every item
extracted from a document — and Item("Screw", 5, 1.20) has total 6.00. -/
theorem itemTotal_spec (name units cost : List Char) (it : Item)
    (h : mkItem name units cost = Except.ok it) :
    it.total = (it.units : Rat) * it.unitCost ∧
    (∀ v lines items, extractItems v lines = Except.ok items →
      ∀ x ∈ items, x.total = (x.units : Rat) * x.unitCost) ∧
    mkItem ("Screw".data) ("5".data) ("1.20".data) =
      Except.ok { name := "Screw".data, units := 5, unitCost := mkRat 6 5, total := mkRat 6 1 } := by
  refine ⟨(mkItem_ok_fields _ _ _ _ h).2.2.2, ?_, by decide⟩
  intro v lines
  induction lines with
  | nil =>
    intro items hits x hx
    cases hits
    cases hx
  | cons l ls ih =>
    intro items hits x hx
    unfold extractItems at hits
    cases hp : processLine v l with
    | error e => rw [hp] at hits; cases hits
    | ok o =>
      rw [hp] at hits
      cases o with
      | none => exact ih items hits x hx
      | some i =>
        cases hr : extractItems v ls with
        | error e => rw [hr] at hits; cases hits
        | ok its =>
          rw [hr] at hits
          cases hits
          rcases List.mem_cons.mp hx with rfl | hx2
          · exact processLine_ok_some_total v l x hp
          · exact ih its hr x hx2

/-- Witness for C8 at Item("Screw", "5", "1.20"). -/
theorem itemTotal_witness :
    mkItem ("Screw".data) ("5".data) ("1.20".data) =
      Except.ok { name := "Screw".data, units := 5, unitCost := mkRat 6 5, total := mkRat 6 1 } ∧
    ({ name := "Screw".data, units := 5, unitCost := mkRat 6 5, total := mkRat 6 1 } : Item).total =
      (({ name := "Screw".data, units := 5, unitCost := mkRat 6 5, total := mkRat 6 1 } : Item).units : Rat) *
        ({ name := "Screw".data, units := 5, unitCost := mkRat 6 5, total := mkRat 6 1 } : Item).unitCost :=
  ⟨by decide,
    (itemTotal_spec ("Screw".data) ("5".data) ("1.20".data)
      { name := "Screw".data, units := 5, unitCost := mkRat 6 5, total := mkRat 6 1 } (by decide)).1⟩

/-- C9 counterexample: a SCREWFIX-matching line with exactly nine
space-separated tokens that passes offset validation and has a decimal point
in its cost token emits no Item — the units token is token 0 ("123AB"),
int() raises, and Item construction fails instead. -/
theorem emptyName_cex :
    screwfixMatch ("123AB 1.50 a b c d e f 9.99".data) = true ∧
    isValidItem (offsetStartOf ("123AB 1.50 a b c d e f 9.99".data))
      screwfixVendor.itemNameOffsetIndex screwfixVendor.unitsOffsetIndex
      screwfixVendor.unitCostOffsetIndex = true ∧
    1 < (costParts screwfixVendor ("123AB 1.50 a b c d e f 9.99".data)).length ∧
    offsetStartOf ("123AB 1.50 a b c d e f 9.99".data) +
      screwfixVendor.itemNameOffsetIndex ≤ 1 ∧
    (lineWords ("123AB 1.50 a b c d e f 9.99".data)).length = 9 ∧
    processLine screwfixVendor ("123AB 1.50 a b c d e f 9.99".data) =
      Except.error "invalid literal for int" := by
  decide

/-- C9 amended: on a matched, offset-valid line whose cost token contains a
decimal point, if offsetStart + nameOffset <= 1 and the units token parses as
an integer and the reconstructed cost string parses as a decimal, an Item is
still emitted and its name is the empty string; a nine-token SCREWFIX line
whose token 0 is numeric produces an Item with an empty name, while a
nine-token line with non-numeric token 0 fails item construction instead
(the units offset resolves to token 0). -/
theorem emptyName_spec (v : Vendor) (line : List Char)
    (hm : v.itemMatch line = true)
    (hv : isValidItem (offsetStartOf line) v.itemNameOffsetIndex v.unitsOffsetIndex
      v.unitCostOffsetIndex = true)
    (hdot : 1 < (costParts v line).length)
    (hname : offsetStartOf line + v.itemNameOffsetIndex ≤ 1)
    (hu : (pyInt (unitsTokOf v line)).isSome = true)
    (hc : (pyFloat (costString v line)).isSome = true) :
    (∃ it, processLine v line = Except.ok (some it) ∧ it.name = []) ∧
    processLine screwfixVendor ("12345 6.50 a b c d e f 9.99".data) =
      Except.ok (some { name := [], units := 12345, unitCost := mkRat 13 2, total := mkRat 160485 2 }) := by
  refine ⟨?_, by decide⟩
  obtain ⟨u, hu'⟩ := Option.isSome_iff_exists.mp hu
  obtain ⟨c, hc'⟩ := Option.isSome_iff_exists.mp hc
  have h0 : 0 ≤ offsetStartOf line + v.itemNameOffsetIndex :=
    ((isValidItem_iff _ _ _ _).mp hv).1.1
  have hnm : nameOf v line = [] := by
    unfold nameOf
    rw [pySliceL_one_eq_nil (lineWords line) (offsetStartOf line + v.itemNameOffsetIndex)
      h0 hname]
    rfl
  have hmk : mkItem (nameOf v line) (unitsTokOf v line) (costString v line) =
      Except.ok { name := nameOf v line, units := u, unitCost := c, total := mkRat (u * c.num) c.den } := by
    unfold mkItem
    rw [hu', hc']
  refine ⟨{ name := nameOf v line, units := u, unitCost := c, total := mkRat (u * c.num) c.den }, ?_, hnm⟩
  rw [processLine_eq_of_valid v line hm hv hdot, hmk]
  rfl

/-- Witness for C9's amended theorem at a nine-token SCREWFIX line whose
token 0 is the numeric code "12345". -/
theorem emptyName_witness :
    screwfixVendor.itemMatch ("12345 6.50 a b c d e f 9.99".data) = true ∧
    isValidItem (offsetStartOf ("12345 6.50 a b c d e f 9.99".data))
      screwfixVendor.itemNameOffsetIndex screwfixVendor.unitsOffsetIndex
      screwfixVendor.unitCostOffsetIndex = true ∧
    1 < (costParts screwfixVendor ("12345 6.50 a b c d e f 9.99".data)).length ∧
    offsetStartOf ("12345 6.50 a b c d e f 9.99".data) +
      screwfixVendor.itemNameOffsetIndex ≤ 1 ∧
    (∃ it, processLine screwfixVendor ("12345 6.50 a b c d e f 9.99".data) =
      Except.ok (some it) ∧ it.name = []) :=
  ⟨by decide, by decide, by decide, by decide,
    (emptyName_spec screwfixVendor ("12345 6.50 a b c d e f 9.99".data)
      (by decide) (by decide) (by decide) (by decide) (by decide) (by decide)).1⟩

/-- C2 counterexample: with template DD/MM/YYYY and lines containing
"15/03/2023" and "99/99/9999", the second match is not a valid calendar date,
so extractDate fails with an error even though the sequence of successfully
parsed dates is the non-empty [2023-03-15] — refuting "fails iff the
sequence is empty". -/
theorem extractDate_invalid_match_cex :
    (∃ e, extractDate 2025 ("DD/MM/YYYY".data)
      ["15/03/2023".data, "99/99/9999".data] = Except.error e) ∧
    (allMatches ("DD/MM/YYYY".data) ["15/03/2023".data, "99/99/9999".data]).filterMap
        (parseDate 2025 ("DD/MM/YYYY".data)) =
      [{ year := 2023, month := 3, day := 15 }] :=
  ⟨⟨"ValueError: invalid date", by decide⟩, by decide⟩

/-- C2 amended: extractDate fails whenever some pattern match does not parse
as a valid calendar date (rather than skipping it); when every match parses,
it fails exactly when there is no match, and otherwise returns the
chronologically latest of the parsed dates. No default date is ever
substituted. -/
theorem extractDate_latest (cy : Nat) (fmt : List Char) (lines : List (List Char)) :
    ((∃ m ∈ allMatches fmt lines, parseDate cy fmt m = none) →
      ∃ e, extractDate cy fmt lines = Except.error e) ∧
    ((∀ m ∈ allMatches fmt lines, (parseDate cy fmt m).isSome = true) →
      (((∃ e, extractDate cy fmt lines = Except.error e) ↔ allMatches fmt lines = []) ∧
       (∀ d, extractDate cy fmt lines = Except.ok d →
         d ∈ (allMatches fmt lines).filterMap (parseDate cy fmt) ∧
         ∀ x ∈ (allMatches fmt lines).filterMap (parseDate cy fmt),
           dateLe x d = true))) := by
  constructor
  · intro h
    unfold extractDate
    cases hd : findDelim fmt with
    | none => exact ⟨_, rfl⟩
    | some δ =>
      obtain ⟨e, he⟩ := exceptMapM_error_of_none cy fmt (allMatches fmt lines) h
      rw [he]
      exact ⟨e, rfl⟩
  · intro h
    cases hd : findDelim fmt with
    | none =>
      have hm : allMatches fmt lines = [] := by
        unfold allMatches
        rw [hd]
      have herr : extractDate cy fmt lines =
          Except.error "AttributeError: no delimiter in date format" := by
        unfold extractDate
        rw [hd]
      refine ⟨⟨fun _ => hm, fun _ => ⟨_, herr⟩⟩, ?_⟩
      intro d hdok
      rw [herr] at hdok
      cases hdok
    | some δ =>
      have hok := exceptMapM_ok_of_all_some cy fmt (allMatches fmt lines) h
      have hED : extractDate cy fmt lines =
          match maxDate? ((allMatches fmt lines).filterMap (parseDate cy fmt)) with
          | none => Except.error "ValueError: max() arg is an empty sequence"
          | some d => Except.ok d := by
        simp only [extractDate, hd, hok]
      constructor
      · constructor
        · rintro ⟨e, he⟩
          rw [hED] at he
          cases hmax : maxDate? ((allMatches fmt lines).filterMap (parseDate cy fmt)) with
          | none =>
            cases hms : allMatches fmt lines with
            | nil => rfl
            | cons m ms =>
              exfalso
              obtain ⟨d0, hd0⟩ := Option.isSome_iff_exists.mp
                (h m (by rw [hms]; exact List.mem_cons_self m ms))
              rw [hms] at hmax
              simp [List.filterMap_cons, hd0, maxDate?] at hmax
          | some dm =>
            rw [hmax] at he
            cases he
        · intro hms
          refine ⟨"ValueError: max() arg is an empty sequence", ?_⟩
          rw [hED, hms]
          rfl
      · intro d hdok
        rw [hED] at hdok
        cases hmax : maxDate? ((allMatches fmt lines).filterMap (parseDate cy fmt)) with
        | none =>
          rw [hmax] at hdok
          cases hdok
        | some dm =>
          rw [hmax] at hdok
          have hdm : dm = d := by injection hdok
          subst hdm
          exact maxDate?_some_spec _ _ hmax

/-- Witness for C2's amended theorem: template DD/MM/YYYY over lines
"01/02/2023" and "15/03/2023", where every match parses. -/
theorem extractDate_latest_witness :
    (∀ m ∈ allMatches ("DD/MM/YYYY".data) ["01/02/2023".data, "15/03/2023".data],
      (parseDate 2025 ("DD/MM/YYYY".data) m).isSome = true) ∧
    (((∃ e, extractDate 2025 ("DD/MM/YYYY".data)
        ["01/02/2023".data, "15/03/2023".data] = Except.error e) ↔
      allMatches ("DD/MM/YYYY".data) ["01/02/2023".data, "15/03/2023".data] = []) ∧
     (∀ d, extractDate 2025 ("DD/MM/YYYY".data)
        ["01/02/2023".data, "15/03/2023".data] = Except.ok d →
       d ∈ (allMatches ("DD/MM/YYYY".data)
          ["01/02/2023".data, "15/03/2023".data]).filterMap
            (parseDate 2025 ("DD/MM/YYYY".data)) ∧
       ∀ x ∈ (allMatches ("DD/MM/YYYY".data)
          ["01/02/2023".data, "15/03/2023".data]).filterMap
            (parseDate 2025 ("DD/MM/YYYY".data)), dateLe x d = true)) :=
  ⟨by decide,
    (extractDate_latest 2025 ("DD/MM/YYYY".data)
      ["01/02/2023".data, "15/03/2023".data]).2 (by decide)⟩

/-- C5: the generated date pattern maps each template character to a
single-digit wildcard unless it equals the delimiter (the first template
character in the class / - .), which maps to the literal delimiter, in
template order; a string matches exactly when it has the template's length
with digits and the delimiter in exactly the template's positions. -/
theorem datePattern_spec (fmt : List Char) (δ : Char) (_h : findDelim fmt = some δ)
    (s : List Char) :
    dateRegexParts fmt δ =
      fmt.map (fun c => if c = δ then RegexToken.lit δ else RegexToken.digit) ∧
    (patMatch (dateRegexParts fmt δ) s = true ↔
      (s.length = fmt.length ∧ ∀ i, i < fmt.length →
        (fmt.getD i ' ' = δ → s.getD i ' ' = δ) ∧
        (fmt.getD i ' ' ≠ δ → (s.getD i ' ').isDigit = true))) := by
  have hfg : (fun c => if c ≠ δ then RegexToken.digit else RegexToken.lit δ) =
      (fun c => if c = δ then RegexToken.lit δ else RegexToken.digit) := by
    funext c
    by_cases hc : c = δ <;> simp [hc]
  constructor
  · unfold dateRegexParts
    rw [hfg]
  · unfold dateRegexParts
    rw [patMatch_map_iff]
    exact and_congr Iff.rfl (forall_congr' fun i => imp_congr Iff.rfl
      (tokMatch_delim_iff δ (fmt.getD i ' ') (s.getD i ' ')))

/-- Witness for C5 at template DD/MM/YYYY, delimiter '/', and the candidate
string "15/03/2023". -/
theorem datePattern_witness :
    findDelim ("DD/MM/YYYY".data) = some '/' ∧
    (dateRegexParts ("DD/MM/YYYY".data) '/' =
      ("DD/MM/YYYY".data).map
        (fun c => if c = '/' then RegexToken.lit '/' else RegexToken.digit) ∧
    (patMatch (dateRegexParts ("DD/MM/YYYY".data) '/') ("15/03/2023".data) = true ↔
      (("15/03/2023".data).length = ("DD/MM/YYYY".data).length ∧
        ∀ i, i < ("DD/MM/YYYY".data).length →
        (("DD/MM/YYYY".data).getD i ' ' = '/' → ("15/03/2023".data).getD i ' ' = '/') ∧
        (("DD/MM/YYYY".data).getD i ' ' ≠ '/' →
          (("15/03/2023".data).getD i ' ').isDigit = true)))) :=
  ⟨by decide, datePattern_spec ("DD/MM/YYYY".data) '/' (by decide) ("15/03/2023".data)⟩

/-- C6: when the template's Y run has length 2 the year prefix is the first
two characters of the current calendar year and is prepended to each matched
year substring before parsing; for any other run length the prefix is empty.
For template YY-MM-DD, match "24-07-01" and a current year beginning "20",
the resolved date is 2024-07-01. -/
theorem twoDigitYear_spec (cy : Nat) (fmt : List Char) (L : Nat)
    (h : isSingleRun 'Y' fmt L) :
    (L = 2 →
      yearPrefixStr cy fmt = (Nat.toDigits 10 cy).take 2 ∧
      ∀ m, yearStr cy fmt m =
        (Nat.toDigits 10 cy).take 2 ++
          pySliceL m (pyFindChar 'Y' fmt) (pyFindChar 'Y' fmt + (2 : Nat))) ∧
    (L ≠ 2 →
      yearPrefixStr cy fmt = [] ∧
      ∀ m, yearStr cy fmt m =
        pySliceL m (pyFindChar 'Y' fmt) (pyFindChar 'Y' fmt + L)) ∧
    (∀ cy', (Nat.toDigits 10 cy').take 2 = ['2', '0'] →
      parseDate cy' ("YY-MM-DD".data) ("24-07-01".data) =
        some { year := 2024, month := 7, day := 1 }) := by
  have hcount : numY fmt = L := count_of_singleRun 'Y' fmt L h
  refine ⟨?_, ?_, ?_⟩
  · intro h2
    have hn : numY fmt = 2 := by rw [hcount, h2]
    refine ⟨yearPrefixStr_of_two cy fmt hn, ?_⟩
    intro m
    unfold yearStr
    rw [yearPrefixStr_of_two cy fmt hn, hn]
  · intro h2
    have hn : numY fmt ≠ 2 := by rw [hcount]; exact h2
    refine ⟨yearPrefixStr_of_ne cy fmt hn, ?_⟩
    intro m
    unfold yearStr
    rw [yearPrefixStr_of_ne cy fmt hn, hcount]
    exact List.nil_append _
  · intro cy' hp
    unfold parseDate yearStr monthStr dayStr
    rw [yearPrefixStr_of_two cy' ("YY-MM-DD".data) (by decide), hp]
    decide

/-- Witness for C6 at template YY-MM-DD (single Y run of length 2) and
current year 2025. -/
theorem twoDigitYear_witness :
    isSingleRun 'Y' ("YY-MM-DD".data) 2 ∧
    yearPrefixStr 2025 ("YY-MM-DD".data) = (Nat.toDigits 10 2025).take 2 ∧
    parseDate 2025 ("YY-MM-DD".data) ("24-07-01".data) =
      some { year := 2024, month := 7, day := 1 } := by
  have hrun : isSingleRun 'Y' ("YY-MM-DD".data) 2 :=
    ⟨by decide, [], "-MM-DD".data, by decide, by decide, by decide⟩
  have hspec := twoDigitYear_spec 2025 ("YY-MM-DD".data) 2 hrun
  exact ⟨hrun, (hspec.1 rfl).1, hspec.2.2 2025 (by decide)⟩

/-- C10: for a template whose number of Y characters differs from 2,
extractDate is independent of the current calendar year — runs at different
current times over the same lines resolve the same date. -/
theorem dateDeterminism_spec (fmt : List Char) (h : numY fmt ≠ 2) (cy₁ cy₂ : Nat)
    (lines : List (List Char)) :
    extractDate cy₁ fmt lines = extractDate cy₂ fmt lines := by
  unfold extractDate
  cases hd : findDelim fmt with
  | none => rfl
  | some δ =>
    have hmm : exceptMapM (parseDateE cy₁ fmt) (allMatches fmt lines) =
        exceptMapM (parseDateE cy₂ fmt) (allMatches fmt lines) := by
      apply exceptMapM_congr
      intro m _
      unfold parseDateE
      rw [parseDate_cy_congr fmt h cy₁ cy₂ m]
    rw [hmm]

/-- Witness for C10: the four-Y TOOLSTATION template resolves identically
under current years 1999 and 2024. -/
theorem dateDeterminism_witness :
    numY ("YYYY-MM-DD".data) ≠ 2 ∧
    extractDate 1999 ("YYYY-MM-DD".data) ["2023-01-02".data] =
      extractDate 2024 ("YYYY-MM-DD".data) ["2023-01-02".data] :=
  ⟨by decide,
    dateDeterminism_spec ("YYYY-MM-DD".data) (by decide) 1999 2024 ["2023-01-02".data]⟩

end Invoice

